import Mathlib

/-!
Verification development for the biglinux-welcome package-installation
progress pipeline.

The definitions below are a shallow embedding of the Python sources:
  * `usr/share/biglinux/welcome/window.py`  — line splitter
    (`_flush_line_buffer`), process-output reader and install outcome logic
    (`WelcomeWindow._perform_browser_install`);
  * `usr/share/biglinux/welcome/widgets.py` — `InstallPanel`: the line
    classifier (`_get_line_tag`), the milestone-based progress estimator
    (`_parse_progress`), the cancel handler (`_on_cancel`) and the
    associated class-level tables.

Modelling conventions:
  * Python byte strings are `List Nat` (byte values 0..255).
  * Python `str` is Lean `String`; `str.lower` is modelled ASCII-wise by
    `Char.toLower` (all keywords involved are ASCII), `str.strip` by
    `String.trim`.
  * Python floats are modelled by exact rationals `ℚ`; every float literal
    in the source is a short decimal, and the program only compares such
    values with each other, so exact rational arithmetic produces the same
    comparison results.
  * `bytes.decode("utf-8", errors="replace")` is modelled by a UTF-8
    decoder that replaces each maximal invalid subpart with U+FFFD.
  * The regular expression `\d` is modelled as an ASCII digit.
-/

set_option maxRecDepth 4000

namespace BigWelcome

/-! ## Python string primitives

All string operations are spelled out on the underlying character lists
(rather than through the core `String` API) so that every definition in
this file evaluates by kernel reduction on concrete inputs. -/

/-- Python `str.lower()` restricted to ASCII case mapping. -/
def lowerStr (s : String) : String := String.mk (s.data.map Char.toLower)

/-- Python whitespace class (also the model of the regex class `\s`). -/
def pySpace (c : Char) : Bool :=
  c == ' ' || c == '\t' || c == '\n' || c == '\r' ||
  c == Char.ofNat 11 || c == Char.ofNat 12

/-- Python `str.strip()` on a character list. -/
def trimList (l : List Char) : List Char :=
  ((l.dropWhile pySpace).reverse.dropWhile pySpace).reverse

/-- Python `str.strip()` (whitespace trimming at both ends). -/
def pyStrip (s : String) : String := String.mk (trimList s.data)

/-- `startsWithList l pat`: `pat` is a prefix of `l` (on character lists). -/
def startsWithList : List Char → List Char → Bool
  | _, [] => true
  | [], _ :: _ => false
  | a :: as, b :: bs => a == b && startsWithList as bs

/-- Python `s.startswith(pat)`. -/
def strStartsWith (s pat : String) : Bool := startsWithList s.data pat.data

/-- Python falsiness of a string (`not line`). -/
def strIsEmpty (s : String) : Bool := s.data.isEmpty

/-- One pass of Python `str.replace(pat, rep)` (non-overlapping, left to
right).  Structural recursion on a fuel counter: every step consumes at
least one character, so a fuel of `l.length` suffices.  (The source only
ever replaces the fixed non-empty pattern `"downloading..."`; an empty
pattern is returned unchanged here.) -/
def replaceAux : Nat → List Char → List Char → List Char → List Char
  | 0, l, _, _ => l
  | _ + 1, [], _, _ => []
  | fuel + 1, l@(c :: rest), pat, rep =>
      if pat.isEmpty then l
      else if startsWithList l pat then rep ++ replaceAux fuel (l.drop pat.length) pat rep
      else c :: replaceAux fuel rest pat rep

/-- Python `str.replace(pat, rep)`. -/
def pyReplace (s pat rep : String) : String :=
  String.mk (replaceAux s.data.length s.data pat.data rep.data)

/-- Python `pat in hay` substring test, on character lists. -/
def containsSub : List Char → List Char → Bool
  | [], pat => startsWithList [] pat
  | l@(_ :: t), pat => startsWithList l pat || containsSub t pat

/-- Python `pat in hay` substring test on strings. -/
def strContains (hay pat : String) : Bool := containsSub hay.data pat.data

/-- Python `int(s)` on a (non-empty) string of decimal digits. -/
def digitsToNat (ds : List Char) : Nat :=
  ds.foldl (fun a c => a * 10 + (c.toNat - 48)) 0

/-- ASCII decimal digit test (model of the regex class `\d`). -/
def isAsciiDigit (c : Char) : Bool := 48 ≤ c.toNat && c.toNat ≤ 57

/-! ## UTF-8 decoding with replacement

Model of `bytes.decode("utf-8", errors="replace")`: each maximal valid
prefix of a multi-byte sequence that cannot be completed is replaced by a
single U+FFFD, and decoding resumes at the offending byte. -/

/-- The Unicode replacement character U+FFFD. -/
def replChar : Char := Char.ofNat 0xFFFD

/-- UTF-8 continuation byte test. -/
def isCont (b : Nat) : Bool := 0x80 ≤ b && b ≤ 0xBF

/-- Decode one scalar starting with lead byte `b`; returns the decoded
character and how many bytes of `rest` were additionally consumed. -/
def utf8Step (b : Nat) (rest : List Nat) : Char × Nat :=
  if b < 0x80 then (Char.ofNat b, 0)
  else if 0xC2 ≤ b && b ≤ 0xDF then
    match rest with
    | b2 :: _ =>
        if isCont b2 then (Char.ofNat ((b - 0xC0) * 64 + (b2 - 0x80)), 1)
        else (replChar, 0)
    | [] => (replChar, 0)
  else if 0xE0 ≤ b && b ≤ 0xEF then
    let lo2 : Nat := if b = 0xE0 then 0xA0 else 0x80
    let hi2 : Nat := if b = 0xED then 0x9F else 0xBF
    match rest with
    | b2 :: rest2 =>
        if lo2 ≤ b2 && b2 ≤ hi2 then
          match rest2 with
          | b3 :: _ =>
              if isCont b3 then
                (Char.ofNat ((b - 0xE0) * 4096 + (b2 - 0x80) * 64 + (b3 - 0x80)), 2)
              else (replChar, 1)
          | [] => (replChar, 1)
        else (replChar, 0)
    | [] => (replChar, 0)
  else if 0xF0 ≤ b && b ≤ 0xF4 then
    let lo2 : Nat := if b = 0xF0 then 0x90 else 0x80
    let hi2 : Nat := if b = 0xF4 then 0x8F else 0xBF
    match rest with
    | b2 :: rest2 =>
        if lo2 ≤ b2 && b2 ≤ hi2 then
          match rest2 with
          | b3 :: rest3 =>
              if isCont b3 then
                match rest3 with
                | b4 :: _ =>
                    if isCont b4 then
                      (Char.ofNat ((b - 0xF0) * 262144 + (b2 - 0x80) * 4096 +
                        (b3 - 0x80) * 64 + (b4 - 0x80)), 3)
                    else (replChar, 2)
                | [] => (replChar, 2)
              else (replChar, 1)
          | [] => (replChar, 1)
        else (replChar, 0)
    | [] => (replChar, 0)
  else (replChar, 0)

/-- Decode a byte list to characters; structural recursion on a fuel
counter (each decoded character consumes at least one byte, so a fuel of
`l.length` always suffices). -/
def utf8DecodeAux : Nat → List Nat → List Char
  | _, [] => []
  | 0, _ :: _ => []
  | fuel + 1, b :: rest =>
      let s := utf8Step b rest
      s.1 :: utf8DecodeAux fuel (rest.drop s.2)

/-- Decode a byte list to characters, UTF-8 with replacement. -/
def utf8DecodeList (l : List Nat) : List Char := utf8DecodeAux l.length l

/-- Model of `bytes.decode("utf-8", errors="replace")`. -/
def utf8Decode (l : List Nat) : String := String.mk (utf8DecodeList l)

/-- UTF-8 bytes of an ASCII string (used to form concrete byte inputs). -/
def strBytes (s : String) : List Nat := s.data.map Char.toNat

/-! ## Line splitter (`window._flush_line_buffer`) -/

/-- A line dispatched by the splitter: LF-terminated lines go to
`panel.append_log` (log lines), CR-terminated lines go to
`panel.parse_progress` (progress-update lines). -/
inductive Dispatch where
  | log (s : String)
  | progress (s : String)
deriving DecidableEq

/-- Split the buffer at the first LF or CR byte, returning the preceding
bytes, the terminator byte, and the rest.  This realizes the source's
selection between `buf.find(b"\n")` and `buf.find(b"\r")`: the line is cut
at whichever terminator occurs first (`is_newline` holds exactly when the
first terminator is LF; the two indices can never be equal). -/
def splitAtFirstTerm : List Nat → Option (List Nat × Nat × List Nat)
  | [] => none
  | c :: rest =>
      if c = 10 ∨ c = 13 then some ([], c, rest)
      else
        match splitAtFirstTerm rest with
        | some (l, t, r) => some (c :: l, t, r)
        | none => none

theorem splitAtFirstTerm_rest_length {buf pre t rest} :
    splitAtFirstTerm buf = some (pre, t, rest) → rest.length < buf.length := by
  induction buf generalizing pre t rest with
  | nil => intro h; simp [splitAtFirstTerm] at h
  | cons c cs ih =>
      intro h
      simp only [splitAtFirstTerm] at h
      split at h
      · cases h
        simp
      · revert h
        split
        · rename_i l' t' r' heq
          intro h
          cases h
          have := ih heq
          simp only [List.length_cons]
          omega
        · intro h; cases h

/-- The body of the `while` loop of `_flush_line_buffer`, with structural
recursion on a fuel counter (each extracted line consumes at least one
byte of the buffer, so a fuel of `buf.length` always suffices). -/
def flushAux : Nat → List Nat → List Dispatch × List Nat
  | 0, buf => ([], buf)
  | fuel + 1, buf =>
      match splitAtFirstTerm buf with
      | none => ([], buf)
      | some (pre, t, rest) =>
          let line := utf8Decode pre
          let res := flushAux fuel rest
          if strIsEmpty line || strStartsWith line "STATUS:" then res
          else ((if t = 10 then Dispatch.log line else Dispatch.progress line) :: res.1,
                res.2)

/-- Model of `window._flush_line_buffer`: extract complete lines from
`buf`, dispatch them, and return the dispatched lines together with the
unterminated remainder.  Empty lines and lines starting with `STATUS:` are
discarded without dispatch. -/
def flushLineBuffer (buf : List Nat) : List Dispatch × List Nat :=
  flushAux buf.length buf

/-- Feed a sequence of byte chunks through the line buffer, as
`_read_process_output` does: append each chunk to the carried remainder
and flush; accumulate the dispatched lines. -/
def feedFrom (buf : List Nat) : List (List Nat) → List Dispatch × List Nat
  | [] => ([], buf)
  | c :: cs =>
      let r1 := flushLineBuffer (buf ++ c)
      let r2 := feedFrom r1.2 cs
      (r1.1 ++ r2.1, r2.2)

/-! ## Line classifier (`InstallPanel._get_line_tag`) -/

/-- Model of `InstallPanel._get_line_tag`: color tag for a log line. -/
def getLineTag (line : String) : Option String :=
  let lower := pyStrip (lowerStr line)
  if strContains lower "error" || strContains lower "failed" then some "error"
  else if strContains lower "successfully" || strContains lower "done" then some "success"
  else if strContains lower "warning" then some "warning"
  else if strStartsWith lower "installing" || strStartsWith lower "removing" ||
          strStartsWith lower "checking" || strStartsWith lower "resolving" ||
          strStartsWith lower "::" then some "info"
  else if strStartsWith lower "package" || strStartsWith lower "total" ||
          strStartsWith lower "optional" then some "dim"
  else none

/-! ## Progress estimator tables (`InstallPanel` class attributes) -/

/-- Model of `InstallPanel._MILESTONES`: keyword → fraction.  The float
literals 0.05, 0.10, … of the source are represented as exact rationals
(`mkRat n 100` is the literal `0.n`). -/
def MILESTONES : List (String × ℚ) :=
  [("synchronizing", mkRat 5 100),
   ("resolving dependencies", mkRat 10 100),
   ("looking for conflicting", mkRat 15 100),
   ("retrieving", mkRat 20 100),
   ("checking key", mkRat 55 100),
   ("checking package integrity", mkRat 60 100),
   ("loading package", mkRat 65 100),
   ("checking for file conflicts", mkRat 70 100),
   ("checking available disk space", mkRat 75 100),
   ("processing package changes", mkRat 80 100),
   ("installing", mkRat 85 100),
   ("upgrading", mkRat 85 100),
   ("running post-transaction hooks", mkRat 95 100)]

/-- Model of `InstallPanel._PHASE_LABELS`: keyword → phase label. -/
def PHASE_LABELS : List (String × String) :=
  [("synchronizing", "Synchronizing databases…"),
   ("resolving dependencies", "Resolving dependencies…"),
   ("looking for conflicting", "Checking for conflicts…"),
   ("retrieving", "Downloading packages…"),
   ("checking key", "Verifying signatures…"),
   ("checking package integrity", "Verifying integrity…"),
   ("loading package", "Loading packages…"),
   ("checking for file conflicts", "Checking for conflicts…"),
   ("checking available disk space", "Checking disk space…"),
   ("processing package changes", "Applying changes…"),
   ("installing", "Installing…"),
   ("upgrading", "Upgrading…"),
   ("running post-transaction hooks", "Running post-install hooks…")]

/-- `self._PHASE_LABELS.get(keyword, "")`. -/
def phaseLabel (k : String) : String := (List.lookup k PHASE_LABELS).getD ""

/-- Model of `InstallPanel._CANCEL_CUTOFF` (the float literal 0.80). -/
def CANCEL_CUTOFF : ℚ := mkRat 80 100

/-! ## Download-progress regex (`InstallPanel._RE_DOWNLOAD`)

`re.compile(r"(\d+(?:\.\d+)?\s*[KMG]iB/s).*?(\d{1,3})%")`, searched with
`re.search` (leftmost match).  The pattern pieces are deterministic except
for the lazy gap `.*?` (expanded shortest-first, `.` not matching a
newline) and the greedy `\d{1,3}` (tried longest-first). -/

/-- Match `(\d+(?:\.\d+)?\s*[KMG]iB/s)` anchored at the head of `l`;
returns the matched characters (group 1) and the rest of the input. -/
def matchSpeedAt (l : List Char) : Option (List Char × List Char) :=
  let p1 := l.span isAsciiDigit
  if p1.1.isEmpty then none
  else
    let fr : List Char × List Char :=
      match p1.2 with
      | '.' :: r =>
          let p2 := r.span isAsciiDigit
          if p2.1.isEmpty then ([], p1.2) else ('.' :: p2.1, p2.2)
      | _ => ([], p1.2)
    let sp := fr.2.span pySpace
    match sp.2 with
    | u :: r4 =>
        if (u == 'K' || u == 'M' || u == 'G') &&
            startsWithList r4 ['i', 'B', '/', 's'] then
          some (p1.1 ++ fr.1 ++ sp.1 ++ [u, 'i', 'B', '/', 's'], r4.drop 4)
        else none
    | [] => none

/-- Match `(\d{1,3})%` anchored at the head of `l`, trying three digits
first (greedy), then two, then one; returns the digit group. -/
def matchPctAt : List Char → Option (List Char)
  | a :: b :: c :: p :: _ =>
      if isAsciiDigit a && isAsciiDigit b && isAsciiDigit c && p == '%' then
        some [a, b, c]
      else if isAsciiDigit a && isAsciiDigit b && c == '%' then some [a, b]
      else if isAsciiDigit a && b == '%' then some [a]
      else none
  | [a, b, c] =>
      if isAsciiDigit a && isAsciiDigit b && c == '%' then some [a, b]
      else if isAsciiDigit a && b == '%' then some [a]
      else none
  | [a, b] => if isAsciiDigit a && b == '%' then some [a] else none
  | _ => none

/-- Expand the lazy gap `.*?` one character at a time (never across a
newline) until `(\d{1,3})%` matches. -/
def searchPctFrom : List Char → Option (List Char)
  | [] => none
  | l@(c :: rest) =>
      match matchPctAt l with
      | some ds => some ds
      | none => if c == '\n' then none else searchPctFrom rest

/-- `InstallPanel._RE_DOWNLOAD.search(line)`: try the whole pattern at
each start position from the left; on success return (group 1, group 2
digits). -/
def reDownloadSearch : List Char → Option (List Char × List Char)
  | [] => none
  | l@(_ :: rest) =>
      match matchSpeedAt l with
      | some g =>
          match searchPctFrom g.2 with
          | some ds => some (g.1, ds)
          | none => reDownloadSearch rest
      | none => reDownloadSearch rest

/-! ## InstallPanel state -/

/-- The mutable `InstallPanel` state touched by the progress pipeline:
`_last_milestone`, the progress-bar fraction, the percent label, the
subtitle (phase label), the pulse animation flag, the cancel button's
sensitivity and label, `_cancelled`, and the log buffer (line, tag). -/
structure PanelState where
  lastMilestone : ℚ
  fraction : ℚ
  percentLabel : String
  subtitle : String
  pulsing : Bool
  cancelSensitive : Bool
  cancelLabel : String
  cancelled : Bool
  log : List (String × Option String)
deriving DecidableEq

/-- The percent label text `f"{int(fraction * 100)}%"`.  Computed on the
components of the exact rational: `int` truncates toward zero, which is
`Int.tdiv` of the (scaled) numerator by the denominator. -/
def percentText (f : ℚ) : String := toString (Int.tdiv (f.num * 100) (f.den : Int)) ++ "%"

/-- The `InstallPanel` state as built by `__init__` (fresh session). -/
def initPanel : PanelState :=
  { lastMilestone := 0
    fraction := 0
    percentLabel := "0%"
    subtitle := "Preparing download…"
    pulsing := false
    cancelSensitive := true
    cancelLabel := "Cancel"
    cancelled := false
    log := [] }

/-- The milestone-qualification test from `_parse_progress`'s loop: the
keyword occurs in the lowered line and its fraction strictly exceeds the
current `_last_milestone`. -/
def milestoneHit (st : PanelState) (lower : String) (kf : String × ℚ) : Bool :=
  strContains lower kf.1 && decide (st.lastMilestone < kf.2)

/-- Model of `InstallPanel._parse_progress`. -/
def parseProgress (st : PanelState) (line : String) : PanelState :=
  let lower := lowerStr line
  match MILESTONES.find? (milestoneHit st lower) with
  | some kf =>
      let st1 := { st with
        lastMilestone := kf.2
        pulsing := false
        fraction := kf.2
        percentLabel := percentText kf.2 }
      let lab := phaseLabel kf.1
      let st2 := if lab ≠ "" then { st1 with subtitle := lab } else st1
      if CANCEL_CUTOFF ≤ kf.2 then { st2 with cancelSensitive := false } else st2
  | none =>
      if mkRat 5 100 ≤ st.lastMilestone ∧ st.lastMilestone < mkRat 55 100 then
        if strContains lower "downloading" then
          let name := pyStrip (pyReplace (pyStrip line) "downloading..." "")
          if name ≠ "" then { st with subtitle := "Downloading " ++ name ++ "…" }
          else st
        else
          match reDownloadSearch line.data with
          | some g =>
              let speed := String.mk g.1
              let pct : Nat := digitsToNat g.2
              -- `0.20 + (pct / 100.0) * 0.35` as an exact rational
              let frac : ℚ := mkRat (2000 + 35 * (pct : Int)) 10000
              { st with
                pulsing := false
                fraction := frac
                percentLabel := percentText frac
                subtitle := "Downloading… " ++ toString pct ++ "% (" ++ speed ++ ")" }
          | none => st
      else st

/-- Model of `InstallPanel.append_log`: record the line with its color
tag, then parse progress from it. -/
def appendLog (st : PanelState) (line : String) : PanelState :=
  parseProgress { st with log := st.log ++ [(line, getLineTag line)] } line

/-- Model of `InstallPanel._on_cancel` (the click handler body). -/
def onCancel (st : PanelState) : PanelState :=
  { st with
    cancelled := true
    cancelSensitive := false
    cancelLabel := "Cancelling…"
    subtitle := "Cancelling installation…" }

/-- Python `min(a, b)` on rationals. -/
def pyMin (a b : ℚ) : ℚ := if b < a then b else a

/-- Python `max(a, b)` on rationals. -/
def pyMax (a b : ℚ) : ℚ := if a < b then b else a

/-- Model of `InstallPanel.set_progress`. -/
def setProgress (st : PanelState) (fraction : ℚ) (phaseText : String) : PanelState :=
  let clamped := pyMax 0 (pyMin 1 fraction)
  let st1 := { st with
    pulsing := false
    fraction := clamped
    percentLabel := percentText clamped }
  if phaseText ≠ "" then { st1 with subtitle := phaseText } else st1

/-- An event acting on the panel during a session: an LF line dispatched
to `append_log`, a CR line dispatched to `parse_progress`, or a click on
the Cancel button. -/
inductive PanelEv where
  | logLine (s : String)
  | progLine (s : String)
  | cancelClick
deriving DecidableEq

/-- One event step.  A click on an insensitive button emits no signal, so
`cancelClick` acts only when the Cancel button is sensitive. -/
def panelStep (st : PanelState) : PanelEv → PanelState
  | .logLine s => appendLog st s
  | .progLine s => parseProgress st s
  | .cancelClick => if st.cancelSensitive then onCancel st else st

/-- Run a session from the fresh panel over a list of events. -/
def runPanel (evs : List PanelEv) : PanelState := evs.foldl panelStep initPanel

/-! ## Install outcome (`WelcomeWindow._perform_browser_install`) -/

/-- What the guarded block of `_perform_browser_install` produced: either
the child's exit code (spawn, full read and `wait(timeout=600)` all
completed), or one of the caught exceptions. -/
inductive RunError where
  | osError
  | timeoutExpired
deriving DecidableEq

/-- Terminal outcome surfaced to the user. -/
inductive InstallOutcome where
  | succeeded
  | failed
  | cancelled
deriving DecidableEq

/-- `success = proc.returncode == 0 and not panel.cancelled` (and `False`
when an exception was caught). -/
def installSuccess (tryResult : Except RunError Int) (cancelledFlag : Bool) : Bool :=
  match tryResult with
  | .ok rc => rc == 0 && !cancelledFlag
  | .error _ => false

/-- The tail of `_perform_browser_install`: a set cancellation flag leads
to `_finish_install` (the Cancelled outcome), then `success` selects
Succeeded versus `set_error` (Failed). -/
def installOutcome (tryResult : Except RunError Int) (cancelledFlag : Bool) :
    InstallOutcome :=
  if cancelledFlag then .cancelled
  else if installSuccess tryResult cancelledFlag then .succeeded
  else .failed

/-! ## Lemmas about the line splitter -/

theorem splitAtFirstTerm_decomp {buf pre t rest} :
    splitAtFirstTerm buf = some (pre, t, rest) →
    buf = pre ++ t :: rest ∧ (t = 10 ∨ t = 13) := by
  induction buf generalizing pre t rest with
  | nil => intro h; simp [splitAtFirstTerm] at h
  | cons c cs ih =>
      intro h
      simp only [splitAtFirstTerm] at h
      split at h
      · rename_i hc
        cases h
        exact ⟨rfl, hc⟩
      · rename_i hc
        revert h
        split
        · rename_i l' t' r' heq
          intro h
          cases h
          obtain ⟨h1, h2⟩ := ih heq
          exact ⟨by rw [List.cons_append, ← h1], h2⟩
        · intro h; cases h

theorem splitAtFirstTerm_append {buf pre t rest} (e : List Nat) :
    splitAtFirstTerm buf = some (pre, t, rest) →
    splitAtFirstTerm (buf ++ e) = some (pre, t, rest ++ e) := by
  induction buf generalizing pre t rest with
  | nil => intro h; simp [splitAtFirstTerm] at h
  | cons c cs ih =>
      intro h
      simp only [splitAtFirstTerm] at h ⊢
      split at h
      · cases h
        simp_all [splitAtFirstTerm]
      · rename_i hc
        rw [if_neg hc]
        simp only [List.append_eq]
        revert h
        split
        · rename_i l' t' r' heq
          intro h
          cases h
          rw [ih heq]
        · intro h; cases h

theorem splitAtFirstTerm_noTerm {buf : List Nat} (h10 : 10 ∉ buf) (h13 : 13 ∉ buf) :
    splitAtFirstTerm buf = none := by
  induction buf with
  | nil => rfl
  | cons c cs ih =>
      simp only [List.mem_cons, not_or] at h10 h13
      simp only [splitAtFirstTerm]
      rw [if_neg (by tauto), ih h10.2 h13.2]

theorem splitAtFirstTerm_noTerm_append {pre : List Nat} {t : Nat} (rest : List Nat)
    (h10 : 10 ∉ pre) (h13 : 13 ∉ pre) (ht : t = 10 ∨ t = 13) :
    splitAtFirstTerm (pre ++ t :: rest) = some (pre, t, rest) := by
  induction pre with
  | nil => simp [splitAtFirstTerm, ht]
  | cons c cs ih =>
      simp only [List.mem_cons, not_or] at h10 h13
      simp only [List.cons_append, splitAtFirstTerm]
      rw [if_neg (by tauto)]
      simp only [List.append_eq]
      rw [ih h10.2 h13.2]

theorem flushAux_nil (fuel : Nat) : flushAux fuel [] = ([], []) := by
  cases fuel <;> rfl

theorem flushAux_fuel {buf : List Nat} {fuel fuel' : Nat}
    (h : buf.length ≤ fuel) (h' : buf.length ≤ fuel') :
    flushAux fuel buf = flushAux fuel' buf := by
  induction fuel generalizing buf fuel' with
  | zero =>
      have : buf = [] := List.length_eq_zero.mp (Nat.le_zero.mp h)
      subst this
      rw [flushAux_nil, flushAux_nil]
  | succ n ih =>
      match hs : splitAtFirstTerm buf with
      | none =>
          cases fuel' with
          | zero =>
              have : buf = [] := List.length_eq_zero.mp (Nat.le_zero.mp h')
              subst this
              rw [flushAux_nil, flushAux_nil]
          | succ m => simp only [flushAux, hs]
      | some (pre, t, rest) =>
          have hlt := splitAtFirstTerm_rest_length hs
          cases fuel' with
          | zero =>
              have : buf = [] := List.length_eq_zero.mp (Nat.le_zero.mp h')
              subst this
              simp [splitAtFirstTerm] at hs
          | succ m =>
              simp only [flushAux, hs]
              rw [@ih rest m (by omega) (by omega)]

theorem flushLineBuffer_none {buf : List Nat} (h : splitAtFirstTerm buf = none) :
    flushLineBuffer buf = ([], buf) := by
  cases buf with
  | nil => rfl
  | cons c cs => simp only [flushLineBuffer, List.length_cons, flushAux, h]

theorem flushLineBuffer_some {buf pre t rest}
    (h : splitAtFirstTerm buf = some (pre, t, rest)) :
    flushLineBuffer buf =
      if strIsEmpty (utf8Decode pre) || strStartsWith (utf8Decode pre) "STATUS:" then
        flushLineBuffer rest
      else ((if t = 10 then Dispatch.log (utf8Decode pre)
             else Dispatch.progress (utf8Decode pre)) :: (flushLineBuffer rest).1,
            (flushLineBuffer rest).2) := by
  have hlt := splitAtFirstTerm_rest_length h
  cases buf with
  | nil => simp [splitAtFirstTerm] at h
  | cons c cs =>
      simp only [flushLineBuffer, List.length_cons, flushAux, h]
      rw [@flushAux_fuel rest cs.length rest.length (by simpa [List.length_cons] using Nat.lt_succ_iff.mp hlt) le_rfl]

theorem flushLineBuffer_rem_none (buf : List Nat) :
    splitAtFirstTerm (flushLineBuffer buf).2 = none := by
  match hs : splitAtFirstTerm buf with
  | none => rw [flushLineBuffer_none hs]; exact hs
  | some (pre, t, rest) =>
      have hlt := splitAtFirstTerm_rest_length hs
      rw [flushLineBuffer_some hs]
      have ih := flushLineBuffer_rem_none rest
      split <;> simpa using ih
termination_by buf.length

theorem flushLineBuffer_append (buf extra : List Nat) :
    (flushLineBuffer (buf ++ extra)).1
        = (flushLineBuffer buf).1
          ++ (flushLineBuffer ((flushLineBuffer buf).2 ++ extra)).1
    ∧ (flushLineBuffer (buf ++ extra)).2
        = (flushLineBuffer ((flushLineBuffer buf).2 ++ extra)).2 := by
  match hs : splitAtFirstTerm buf with
  | none =>
      rw [flushLineBuffer_none hs]
      exact ⟨rfl, rfl⟩
  | some (pre, t, rest) =>
      have hlt := splitAtFirstTerm_rest_length hs
      have hs2 := splitAtFirstTerm_append extra hs
      have ih := flushLineBuffer_append rest extra
      rw [flushLineBuffer_some hs, flushLineBuffer_some hs2]
      split
      · exact ih
      · simp only [List.cons_append, List.append_assoc]
        exact ⟨by rw [ih.1], ih.2⟩
termination_by buf.length

theorem feedFrom_flush {buf : List Nat} (h : splitAtFirstTerm buf = none) :
    ∀ cs : List (List Nat), feedFrom buf cs = flushLineBuffer (buf ++ cs.flatten) := by
  intro cs
  induction cs generalizing buf with
  | nil =>
      simp only [feedFrom, List.flatten_nil, List.append_nil]
      exact (flushLineBuffer_none h).symm
  | cons c cs ih =>
      simp only [feedFrom, List.flatten_cons]
      have hrem := flushLineBuffer_rem_none (buf ++ c)
      rw [ih hrem]
      have happ := flushLineBuffer_append (buf ++ c) cs.flatten
      rw [← List.append_assoc]
      exact Prod.ext happ.1.symm happ.2.symm

/-- The per-segment dispatch decision of `_flush_line_buffer`: discarded
(empty or `STATUS:`-prefixed) lines give `none`, LF-terminated lines a log
dispatch, CR-terminated lines a progress dispatch. -/
def segDispatch (q : List Nat × Nat) : Option Dispatch :=
  let s := utf8Decode q.1
  if strIsEmpty s || strStartsWith s "STATUS:" then none
  else some (if q.2 = 10 then Dispatch.log s else Dispatch.progress s)

theorem flushLineBuffer_reconstruct (buf : List Nat) :
    ∃ segs : List (List Nat × Nat),
      buf = (segs.map (fun q => q.1 ++ [q.2])).flatten ++ (flushLineBuffer buf).2
      ∧ (∀ q ∈ segs, q.2 = 10 ∨ q.2 = 13)
      ∧ (flushLineBuffer buf).1 = segs.filterMap segDispatch := by
  match hs : splitAtFirstTerm buf with
  | none =>
      refine ⟨[], ?_, by simp, ?_⟩
      · rw [flushLineBuffer_none hs]; simp
      · rw [flushLineBuffer_none hs]; simp
  | some (pre, t, rest) =>
      have hlt := splitAtFirstTerm_rest_length hs
      obtain ⟨segs, h1, h2, h3⟩ := flushLineBuffer_reconstruct rest
      obtain ⟨hbuf, hterm⟩ := splitAtFirstTerm_decomp hs
      refine ⟨(pre, t) :: segs, ?_, ?_, ?_⟩
      · rw [flushLineBuffer_some hs]
        have h2' : (flushLineBuffer buf).2 = (flushLineBuffer rest).2 := by
          rw [flushLineBuffer_some hs]; split <;> rfl
        simp only [List.map_cons, List.flatten_cons, List.append_assoc]
        rw [hbuf]
        simp only [List.append_assoc, List.singleton_append, List.cons_append,
          List.append_cancel_left_eq]
        split <;> simpa using h1
      · intro q hq
        rcases List.mem_cons.mp hq with h | h
        · subst h; exact hterm
        · exact h2 q h
      · rw [flushLineBuffer_some hs]
        simp only [List.filterMap_cons, segDispatch]
        split
        · rename_i hcond
          simp only [hcond]
          exact h3
        · rename_i hcond
          simp only [Bool.not_eq_true] at hcond
          simp only [hcond]
          simp [h3]
termination_by buf.length

/-! ## Claims C5 and C6: the line splitter -/

/-- C5: For every finite byte stream, feeding it to the line buffer split
across arbitrary chunk boundaries produces exactly the same sequence of
dispatched lines, with the same log-versus-progress routing, as feeding
the whole stream in a single chunk; and the stream decomposes into the
extracted (line, terminator) segments followed by the remainder, where
exactly the non-discarded segments (non-empty, not `STATUS:`-prefixed)
are dispatched — so the only bytes never re-emitted are the discarded
empty and control lines and their terminators. -/
theorem c5_chunk_invariance (chunks : List (List Nat)) :
    feedFrom [] chunks = flushLineBuffer chunks.flatten
    ∧ ∃ segs : List (List Nat × Nat),
        chunks.flatten = (segs.map (fun q => q.1 ++ [q.2])).flatten
            ++ (flushLineBuffer chunks.flatten).2
        ∧ (∀ q ∈ segs, q.2 = 10 ∨ q.2 = 13)
        ∧ (flushLineBuffer chunks.flatten).1 = segs.filterMap segDispatch := by
  constructor
  · simpa using feedFrom_flush (show splitAtFirstTerm [] = none from rfl) chunks
  · exact flushLineBuffer_reconstruct chunks.flatten

theorem c5_chunk_invariance_witness :
    (feedFrom [] [strBytes "line1\nli", strBytes "ne2\npartial"]).1
      = [Dispatch.log "line1", Dispatch.log "line2"] := by
  have h := (c5_chunk_invariance [strBytes "line1\nli", strBytes "ne2\npartial"]).1
  rw [h]
  decide

/-- C6: The line splitter dispatches each LF-terminated line as a log line
and each CR-terminated line as a progress-update line, discards empty
lines and `STATUS:`-prefixed lines without any dispatch, and returns an
unterminated trailing fragment as the remainder; in particular
`b"hello world\n"` yields one log line, `b"progress 50%\r"` one
progress-update dispatch, `b"line1\nline2\npartial"` two log lines with
remainder `partial`, and `b"STATUS:started\n"` zero dispatches. -/
theorem c6_splitter_dispatch :
    (∀ pre : List Nat, 10 ∉ pre → 13 ∉ pre →
      (strIsEmpty (utf8Decode pre) || strStartsWith (utf8Decode pre) "STATUS:") = false →
        flushLineBuffer (pre ++ [10]) = ([Dispatch.log (utf8Decode pre)], [])
        ∧ flushLineBuffer (pre ++ [13]) = ([Dispatch.progress (utf8Decode pre)], []))
    ∧ (∀ pre : List Nat, 10 ∉ pre → 13 ∉ pre →
      (strIsEmpty (utf8Decode pre) || strStartsWith (utf8Decode pre) "STATUS:") = true →
        flushLineBuffer (pre ++ [10]) = ([], [])
        ∧ flushLineBuffer (pre ++ [13]) = ([], []))
    ∧ (∀ buf : List Nat, 10 ∉ buf → 13 ∉ buf → flushLineBuffer buf = ([], buf))
    ∧ flushLineBuffer (strBytes "hello world\n") = ([Dispatch.log "hello world"], [])
    ∧ flushLineBuffer (strBytes "progress 50%\r") = ([Dispatch.progress "progress 50%"], [])
    ∧ flushLineBuffer (strBytes "line1\nline2\npartial")
        = ([Dispatch.log "line1", Dispatch.log "line2"], strBytes "partial")
    ∧ flushLineBuffer (strBytes "STATUS:started\n") = ([], []) := by
  refine ⟨?_, ?_, ?_, by decide, by decide, by decide, by decide⟩
  · intro pre h10 h13 hkeep
    constructor
    · rw [flushLineBuffer_some
        (splitAtFirstTerm_noTerm_append [] h10 h13 (Or.inl rfl)), hkeep]
      simp [flushLineBuffer, flushAux]
    · rw [flushLineBuffer_some
        (splitAtFirstTerm_noTerm_append [] h10 h13 (Or.inr rfl)), hkeep]
      simp [flushLineBuffer, flushAux]
  · intro pre h10 h13 hdrop
    constructor
    · rw [flushLineBuffer_some
        (splitAtFirstTerm_noTerm_append [] h10 h13 (Or.inl rfl)), hdrop]
      simp [flushLineBuffer, flushAux]
    · rw [flushLineBuffer_some
        (splitAtFirstTerm_noTerm_append [] h10 h13 (Or.inr rfl)), hdrop]
      simp [flushLineBuffer, flushAux]
  · intro buf h10 h13
    exact flushLineBuffer_none (splitAtFirstTerm_noTerm h10 h13)

theorem c6_splitter_dispatch_witness :
    flushLineBuffer (strBytes "abc" ++ [10]) = ([Dispatch.log (utf8Decode (strBytes "abc"))], [])
    ∧ flushLineBuffer (strBytes "STATUS:x" ++ [13]) = ([], []) := by
  refine ⟨(c6_splitter_dispatch.1 (strBytes "abc") (by decide) (by decide) (by decide)).1, ?_⟩
  exact (c6_splitter_dispatch.2.1 (strBytes "STATUS:x") (by decide) (by decide) (by decide)).2

/-! ## Claim C7: the line classifier -/

/-- C7: For every decoded line, the classifier returns its display
category by first-match precedence on the case-folded, trimmed line:
containing "error" or "failed" gives error; else containing
"successfully" or "done" gives success; else containing "warning" gives
warning; else starting with installing/removing/checking/resolving/"::"
gives info; else starting with package/total/optional gives dim; otherwise
none — together with the concrete examples of the specification. -/
theorem c7_classifier :
    (∀ line : String,
      ((strContains (pyStrip (lowerStr line)) "error"
          || strContains (pyStrip (lowerStr line)) "failed") = true →
        getLineTag line = some "error")
      ∧ ((strContains (pyStrip (lowerStr line)) "error"
          || strContains (pyStrip (lowerStr line)) "failed") = false →
        (strContains (pyStrip (lowerStr line)) "successfully"
          || strContains (pyStrip (lowerStr line)) "done") = true →
        getLineTag line = some "success")
      ∧ ((strContains (pyStrip (lowerStr line)) "error"
          || strContains (pyStrip (lowerStr line)) "failed") = false →
        (strContains (pyStrip (lowerStr line)) "successfully"
          || strContains (pyStrip (lowerStr line)) "done") = false →
        strContains (pyStrip (lowerStr line)) "warning" = true →
        getLineTag line = some "warning")
      ∧ ((strContains (pyStrip (lowerStr line)) "error"
          || strContains (pyStrip (lowerStr line)) "failed") = false →
        (strContains (pyStrip (lowerStr line)) "successfully"
          || strContains (pyStrip (lowerStr line)) "done") = false →
        strContains (pyStrip (lowerStr line)) "warning" = false →
        (strStartsWith (pyStrip (lowerStr line)) "installing"
          || strStartsWith (pyStrip (lowerStr line)) "removing"
          || strStartsWith (pyStrip (lowerStr line)) "checking"
          || strStartsWith (pyStrip (lowerStr line)) "resolving"
          || strStartsWith (pyStrip (lowerStr line)) "::") = true →
        getLineTag line = some "info")
      ∧ ((strContains (pyStrip (lowerStr line)) "error"
          || strContains (pyStrip (lowerStr line)) "failed") = false →
        (strContains (pyStrip (lowerStr line)) "successfully"
          || strContains (pyStrip (lowerStr line)) "done") = false →
        strContains (pyStrip (lowerStr line)) "warning" = false →
        (strStartsWith (pyStrip (lowerStr line)) "installing"
          || strStartsWith (pyStrip (lowerStr line)) "removing"
          || strStartsWith (pyStrip (lowerStr line)) "checking"
          || strStartsWith (pyStrip (lowerStr line)) "resolving"
          || strStartsWith (pyStrip (lowerStr line)) "::") = false →
        (strStartsWith (pyStrip (lowerStr line)) "package"
          || strStartsWith (pyStrip (lowerStr line)) "total"
          || strStartsWith (pyStrip (lowerStr line)) "optional") = true →
        getLineTag line = some "dim")
      ∧ ((strContains (pyStrip (lowerStr line)) "error"
          || strContains (pyStrip (lowerStr line)) "failed") = false →
        (strContains (pyStrip (lowerStr line)) "successfully"
          || strContains (pyStrip (lowerStr line)) "done") = false →
        strContains (pyStrip (lowerStr line)) "warning" = false →
        (strStartsWith (pyStrip (lowerStr line)) "installing"
          || strStartsWith (pyStrip (lowerStr line)) "removing"
          || strStartsWith (pyStrip (lowerStr line)) "checking"
          || strStartsWith (pyStrip (lowerStr line)) "resolving"
          || strStartsWith (pyStrip (lowerStr line)) "::") = false →
        (strStartsWith (pyStrip (lowerStr line)) "package"
          || strStartsWith (pyStrip (lowerStr line)) "total"
          || strStartsWith (pyStrip (lowerStr line)) "optional") = false →
        getLineTag line = none))
    ∧ getLineTag "error: could not open file" = some "error"
    ∧ getLineTag "transaction failed" = some "error"
    ∧ getLineTag "Done." = some "success"
    ∧ getLineTag "warning: dependency cycle" = some "warning"
    ∧ getLineTag "installing firefox..." = some "info"
    ∧ getLineTag "Packages (3): " = some "dim"
    ∧ getLineTag "" = none := by
  refine ⟨?_, by decide, by decide, by decide, by decide, by decide, by decide, by decide⟩
  intro line
  refine ⟨?_, ?_, ?_, ?_, ?_, ?_⟩ <;> intros <;> simp_all [getLineTag]

theorem c7_classifier_witness :
    getLineTag "error: could not open file" = some "error"
    ∧ getLineTag "some random output" = none := by
  constructor
  · exact (c7_classifier.1 "error: could not open file").1 (by decide)
  · exact (c7_classifier.1 "some random output").2.2.2.2.2
      (by decide) (by decide) (by decide) (by decide) (by decide)

/-! ## Claim C4: install outcome -/

/-- C4: An installation attempt ends in Succeeded iff the child exits 0
and the cancellation flag is not set; a set cancellation flag overrides
the exit code and yields Cancelled even on a 0 exit (and a cancel click
on the fresh panel — before any milestone match — does set the flag);
nonzero exit, spawn failure (OSError), or exceeding the 600-second wait
timeout (TimeoutExpired) yields Failed. -/
theorem c4_outcome :
    (∀ (r : Except RunError Int) (c : Bool),
      installOutcome r c = InstallOutcome.succeeded ↔ r = Except.ok 0 ∧ c = false)
    ∧ (∀ r : Except RunError Int, installOutcome r true = InstallOutcome.cancelled)
    ∧ (∀ rc : Int, rc ≠ 0 → installOutcome (Except.ok rc) false = InstallOutcome.failed)
    ∧ installOutcome (Except.error RunError.osError) false = InstallOutcome.failed
    ∧ installOutcome (Except.error RunError.timeoutExpired) false = InstallOutcome.failed
    ∧ (panelStep initPanel PanelEv.cancelClick).cancelled = true := by
  refine ⟨?_, ?_, ?_, by decide, by decide, by decide⟩
  · intro r c
    rcases r with rc | e <;> cases c <;>
      simp [installOutcome, installSuccess, beq_iff_eq]
  · intro r
    simp [installOutcome]
  · intro rc h
    simp [installOutcome, installSuccess, beq_iff_eq, h]

theorem c4_outcome_witness :
    installOutcome (Except.ok 0) false = InstallOutcome.succeeded
    ∧ installOutcome (Except.ok 1) false = InstallOutcome.failed := by
  exact ⟨(c4_outcome.1 (Except.ok 0) false).mpr ⟨rfl, rfl⟩,
         c4_outcome.2.2.1 1 (by decide)⟩

/-! ## Claim C2: the milestone table -/

/-- C2 counterexample: the claim says the fractions are strictly
ascending in table order, but the 11th and 12th entries ("installing" and
"upgrading") both carry fraction 0.85, so the chain of strict inequalities
fails. -/
theorem c2_milestone_table_counterexample :
    MILESTONES[10]? = some ("installing", mkRat 85 100)
    ∧ MILESTONES[11]? = some ("upgrading", mkRat 85 100)
    ∧ ¬ List.Chain' (fun a b : ℚ => a < b) (MILESTONES.map Prod.snd) := by
  refine ⟨by decide, by decide, ?_⟩
  intro h
  have := List.chain'_iff_get.mp h 10 (by simp [MILESTONES])
  revert this
  decide

/-- C2 (amended): the fixed milestone table has exactly 13 entries, every
fraction lies in (0,1], the fractions are non-decreasing (not strictly
ascending: "installing" and "upgrading" share 0.85) in table order, and
the cancellation cutoff 0.80 equals the fraction of exactly one entry,
the one with keyword "processing package changes". -/
theorem c2_milestone_table :
    MILESTONES.length = 13
    ∧ (∀ kf ∈ MILESTONES, 0 < kf.2 ∧ kf.2 ≤ 1)
    ∧ List.Chain' (fun a b : ℚ => a ≤ b) (MILESTONES.map Prod.snd)
    ∧ (MILESTONES.filter (fun kf => kf.2 == CANCEL_CUTOFF)).map Prod.fst
        = ["processing package changes"] := by
  refine ⟨by decide, ?_, ?_, by decide⟩
  · intro kf h
    fin_cases h <;> exact ⟨by decide, by decide⟩
  · rw [List.chain'_iff_get]
    decide

theorem c2_milestone_table_witness :
    0 < (mkRat 5 100 : ℚ) ∧ (mkRat 5 100 : ℚ) ≤ 1 :=
  c2_milestone_table.2.1 ("synchronizing", mkRat 5 100) (by decide)

/-! ## Arithmetic facts about the milestone fractions -/

theorem milestone_snd_pos_le_one {kf : String × ℚ} (h : kf ∈ MILESTONES) :
    0 < kf.2 ∧ kf.2 ≤ 1 := by
  fin_cases h <;> exact ⟨by decide, by decide⟩

theorem milestone_snd_le_20 {q : ℚ} (hmem : q ∈ MILESTONES.map Prod.snd)
    (hlt : q < mkRat 55 100) : q ≤ mkRat 20 100 := by
  have he : MILESTONES.map Prod.snd
      = [mkRat 5 100, mkRat 10 100, mkRat 15 100, mkRat 20 100, mkRat 55 100,
         mkRat 60 100, mkRat 65 100, mkRat 70 100, mkRat 75 100, mkRat 80 100,
         mkRat 85 100, mkRat 85 100, mkRat 95 100] := by rfl
  rw [he] at hmem
  fin_cases hmem <;> revert hlt <;> decide

/-- The fraction computed by the download-speed sub-path:
`0.20 + (pct / 100.0) * 0.35` as an exact rational. -/
theorem downloadFrac_ge (d : Nat) :
    mkRat 20 100 ≤ mkRat (2000 + 35 * (d : Int)) 10000 := by
  rw [Rat.mkRat_eq_divInt, Rat.mkRat_eq_divInt,
    Rat.divInt_le_divInt (by norm_num) (by norm_num)]
  omega

theorem downloadFrac_le {d : Nat} (h : d ≤ 999) :
    mkRat (2000 + 35 * (d : Int)) 10000 ≤ mkRat 36965 10000 := by
  rw [Rat.mkRat_eq_divInt, Rat.mkRat_eq_divInt,
    Rat.divInt_le_divInt (by norm_num) (by norm_num)]
  omega

/-! ## Case lemmas for the progress estimator -/

theorem parseProgress_some_proj {st : PanelState} {line : String} {kf : String × ℚ}
    (h : MILESTONES.find? (milestoneHit st (lowerStr line)) = some kf) :
    (parseProgress st line).lastMilestone = kf.2
    ∧ (parseProgress st line).fraction = kf.2
    ∧ (parseProgress st line).cancelSensitive
        = (if CANCEL_CUTOFF ≤ kf.2 then false else st.cancelSensitive)
    ∧ (parseProgress st line).cancelled = st.cancelled := by
  simp only [parseProgress, h]
  split <;> split <;> simp_all

theorem parseProgress_none_proj {st : PanelState} {line : String}
    (h : MILESTONES.find? (milestoneHit st (lowerStr line)) = none) :
    (parseProgress st line).lastMilestone = st.lastMilestone
    ∧ (parseProgress st line).cancelSensitive = st.cancelSensitive
    ∧ (parseProgress st line).cancelled = st.cancelled := by
  simp only [parseProgress, h]
  split
  · split
    · split <;> simp
    · split <;> simp
  · simp

theorem parseProgress_none_fraction {st : PanelState} {line : String}
    (h : MILESTONES.find? (milestoneHit st (lowerStr line)) = none) :
    (parseProgress st line).fraction = st.fraction
    ∨ (mkRat 5 100 ≤ st.lastMilestone ∧ st.lastMilestone < mkRat 55 100
        ∧ ∃ g, reDownloadSearch line.data = some g
            ∧ (parseProgress st line).fraction
                = mkRat (2000 + 35 * ((digitsToNat g.2 : Nat) : Int)) 10000) := by
  simp only [parseProgress, h]
  split
  · rename_i hrange
    split
    · split <;> simp
    · split
      · rename_i g hg
        right
        exact ⟨hrange.1, hrange.2, g, hg, by simp⟩
      · simp
  · simp

theorem parseProgress_downloading {st : PanelState} {line : String}
    (h : MILESTONES.find? (milestoneHit st (lowerStr line)) = none)
    (hr1 : mkRat 5 100 ≤ st.lastMilestone) (hr2 : st.lastMilestone < mkRat 55 100)
    (hd : strContains (lowerStr line) "downloading" = true) :
    (parseProgress st line).fraction = st.fraction
    ∧ (parseProgress st line).lastMilestone = st.lastMilestone
    ∧ (parseProgress st line).cancelSensitive = st.cancelSensitive
    ∧ (pyStrip (pyReplace (pyStrip line) "downloading..." "") ≠ "" →
        (parseProgress st line).subtitle
          = "Downloading " ++ pyStrip (pyReplace (pyStrip line) "downloading..." "") ++ "…") := by
  simp only [parseProgress, h, if_pos (And.intro hr1 hr2), hd]
  rcases eq_or_ne (pyStrip (pyReplace (pyStrip line) "downloading..." "")) "" with hn | hn <;>
    simp [hn]

theorem parseProgress_speed {st : PanelState} {line : String}
    {g : List Char × List Char}
    (h : MILESTONES.find? (milestoneHit st (lowerStr line)) = none)
    (hr1 : mkRat 5 100 ≤ st.lastMilestone) (hr2 : st.lastMilestone < mkRat 55 100)
    (hd : strContains (lowerStr line) "downloading" = false)
    (hg : reDownloadSearch line.data = some g) :
    (parseProgress st line).fraction
        = mkRat (2000 + 35 * ((digitsToNat g.2 : Nat) : Int)) 10000
    ∧ (parseProgress st line).lastMilestone = st.lastMilestone
    ∧ (parseProgress st line).cancelSensitive = st.cancelSensitive
    ∧ (parseProgress st line).subtitle
        = "Downloading… " ++ toString (digitsToNat g.2) ++ "% (" ++ String.mk g.1 ++ ")" := by
  simp only [parseProgress, h, if_pos (And.intro hr1 hr2), hd, hg]
  simp

theorem milestoneHit_of_find?_some {st : PanelState} {lower : String}
    {kf : String × ℚ} (h : MILESTONES.find? (milestoneHit st lower) = some kf) :
    kf ∈ MILESTONES ∧ strContains lower kf.1 = true ∧ st.lastMilestone < kf.2 := by
  have hmem := List.mem_of_find?_eq_some h
  have hp := List.find?_some h
  simp only [milestoneHit, Bool.and_eq_true, decide_eq_true_eq] at hp
  exact ⟨hmem, hp.1, hp.2⟩

/-! ## Session invariants -/

/-- The stored `_last_milestone` is either its initial value 0 or one of
the table fractions. -/
def MilestoneInv (st : PanelState) : Prop :=
  st.lastMilestone = 0 ∨ st.lastMilestone ∈ MILESTONES.map Prod.snd

instance (st : PanelState) : Decidable (MilestoneInv st) := by
  unfold MilestoneInv
  infer_instance

/-- Combined session invariant: the milestone value is from the table (or
0), the displayed fraction is at least the milestone value, and once the
milestone value has reached the cutoff the Cancel button is insensitive. -/
def PanelInv (st : PanelState) : Prop :=
  MilestoneInv st
  ∧ st.lastMilestone ≤ st.fraction
  ∧ (CANCEL_CUTOFF ≤ st.lastMilestone → st.cancelSensitive = false)

theorem initPanel_inv : PanelInv initPanel := by
  refine ⟨Or.inl rfl, le_refl _, ?_⟩
  intro h
  exact absurd h (by decide)

theorem parseProgress_inv {st : PanelState} {line : String} (h : PanelInv st) :
    PanelInv (parseProgress st line) := by
  obtain ⟨hm, hle, hc⟩ := h
  match hf : MILESTONES.find? (milestoneHit st (lowerStr line)) with
  | some kf =>
      obtain ⟨h1, h2, h3, _⟩ := parseProgress_some_proj hf
      obtain ⟨hmem, _, _⟩ := milestoneHit_of_find?_some hf
      refine ⟨?_, ?_, ?_⟩
      · right
        rw [h1]
        exact List.mem_map_of_mem Prod.snd hmem
      · rw [h1, h2]
      · intro hcut
        rw [h1] at hcut
        rw [h3, if_pos hcut]
  | none =>
      obtain ⟨h1, h2, _⟩ := parseProgress_none_proj hf
      refine ⟨?_, ?_, ?_⟩
      · unfold MilestoneInv
        rw [h1]
        exact hm
      · rcases parseProgress_none_fraction hf with hfr | ⟨hge, hlt, g, hg, hfr⟩
        · rw [h1, hfr]; exact hle
        · rw [h1, hfr]
          have h20 : st.lastMilestone ≤ mkRat 20 100 := by
            rcases hm with h0 | hmem
            · rw [h0]; decide
            · exact milestone_snd_le_20 hmem hlt
          exact le_trans h20 (downloadFrac_ge _)
      · intro hcut
        rw [h1] at hcut
        rw [h2]
        exact hc hcut

theorem panelStep_inv {st : PanelState} {e : PanelEv} (h : PanelInv st) :
    PanelInv (panelStep st e) := by
  cases e with
  | logLine s => exact parseProgress_inv h
  | progLine s => exact parseProgress_inv h
  | cancelClick =>
      obtain ⟨hm, hle, hc⟩ := h
      simp only [panelStep]
      split
      · exact ⟨hm, hle, fun _ => rfl⟩
      · exact ⟨hm, hle, hc⟩

theorem foldl_inv {st : PanelState} (evs : List PanelEv) (h : PanelInv st) :
    PanelInv (List.foldl panelStep st evs) := by
  induction evs generalizing st with
  | nil => exact h
  | cons e evs ih => exact ih (panelStep_inv h)

theorem runPanel_inv (evs : List PanelEv) : PanelInv (runPanel evs) :=
  foldl_inv evs initPanel_inv

/-! ## Monotonicity of the milestone value -/

theorem parseProgress_lastMilestone_le (st : PanelState) (line : String) :
    st.lastMilestone ≤ (parseProgress st line).lastMilestone := by
  match hf : MILESTONES.find? (milestoneHit st (lowerStr line)) with
  | some kf =>
      rw [(parseProgress_some_proj hf).1]
      exact le_of_lt (milestoneHit_of_find?_some hf).2.2
  | none =>
      rw [(parseProgress_none_proj hf).1]

theorem panelStep_lastMilestone_le (st : PanelState) (e : PanelEv) :
    st.lastMilestone ≤ (panelStep st e).lastMilestone := by
  cases e with
  | logLine s => exact parseProgress_lastMilestone_le _ s
  | progLine s => exact parseProgress_lastMilestone_le _ s
  | cancelClick =>
      simp only [panelStep]
      split <;> exact le_refl _

theorem foldl_lastMilestone_le (st : PanelState) (evs : List PanelEv) :
    st.lastMilestone ≤ (List.foldl panelStep st evs).lastMilestone := by
  induction evs generalizing st with
  | nil => exact le_refl _
  | cons e evs ih =>
      exact le_trans (panelStep_lastMilestone_le st e) (ih (panelStep st e))

/-! ## The Cancel button is never re-enabled -/

theorem parseProgress_sensitive_mono {st : PanelState} {line : String}
    (h : (parseProgress st line).cancelSensitive = true) :
    st.cancelSensitive = true := by
  match hf : MILESTONES.find? (milestoneHit st (lowerStr line)) with
  | some kf =>
      rw [(parseProgress_some_proj hf).2.2.1] at h
      revert h
      split
      · intro h; cases h
      · exact id
  | none =>
      rw [(parseProgress_none_proj hf).2.1] at h
      exact h

theorem panelStep_sensitive_mono {st : PanelState} {e : PanelEv}
    (h : (panelStep st e).cancelSensitive = true) :
    st.cancelSensitive = true := by
  cases e with
  | logLine s =>
      simp only [panelStep, appendLog] at h
      exact @parseProgress_sensitive_mono
        { st with log := st.log ++ [(s, getLineTag s)] } s h
  | progLine s => exact parseProgress_sensitive_mono h
  | cancelClick =>
      revert h
      simp only [panelStep]
      split
      · intro h; cases h
      · exact id

theorem foldl_sensitive_mono {st : PanelState} {evs : List PanelEv}
    (h : (List.foldl panelStep st evs).cancelSensitive = true) :
    st.cancelSensitive = true := by
  induction evs generalizing st with
  | nil => exact h
  | cons e evs ih => exact panelStep_sensitive_mono (ih h)

/-! ## The percent group of the download regex has at most three digits -/

theorem matchPctAt_digits {l : List Char} {ds : List Char}
    (h : matchPctAt l = some ds) : digitsToNat ds ≤ 999 := by
  match l with
  | a :: b :: c :: p :: rest =>
      simp only [matchPctAt] at h
      split_ifs at h <;> rename_i hc <;>
        simp only [isAsciiDigit, Bool.and_eq_true, decide_eq_true_eq] at hc <;>
        cases h <;> simp only [digitsToNat, List.foldl] <;> omega
  | [a, b, c] =>
      simp only [matchPctAt] at h
      split_ifs at h <;> rename_i hc <;>
        simp only [isAsciiDigit, Bool.and_eq_true, decide_eq_true_eq] at hc <;>
        cases h <;> simp only [digitsToNat, List.foldl] <;> omega
  | [a, b] =>
      simp only [matchPctAt] at h
      split_ifs at h <;> rename_i hc <;>
        simp only [isAsciiDigit, Bool.and_eq_true, decide_eq_true_eq] at hc <;>
        cases h <;> simp only [digitsToNat, List.foldl] <;> omega
  | [a] => simp [matchPctAt] at h
  | [] => simp [matchPctAt] at h

theorem searchPctFrom_digits {l ds : List Char}
    (h : searchPctFrom l = some ds) : digitsToNat ds ≤ 999 := by
  induction l with
  | nil => simp [searchPctFrom] at h
  | cons c rest ih =>
      simp only [searchPctFrom] at h
      revert h
      split
      · rename_i hm
        intro h
        cases h
        exact matchPctAt_digits hm
      · split
        · intro h; cases h
        · exact ih

theorem reDownloadSearch_digits {l : List Char} {g : List Char × List Char}
    (h : reDownloadSearch l = some g) : digitsToNat g.2 ≤ 999 := by
  induction l with
  | nil => simp [reDownloadSearch] at h
  | cons c rest ih =>
      simp only [reDownloadSearch] at h
      revert h
      split
      · split
        · rename_i hp
          intro h
          cases h
          exact searchPctFrom_digits hp
        · exact ih
      · exact ih

/-! ## Claim C1: monotonicity of the surfaced fraction -/

theorem runPanel_take_lastMilestone_mono (evs : List PanelEv) {i j : Nat}
    (hij : i ≤ j) :
    (runPanel (evs.take i)).lastMilestone ≤ (runPanel (evs.take j)).lastMilestone := by
  have h1 : evs.take j = evs.take i ++ (evs.take j).drop i := by
    conv_lhs => rw [← List.take_append_drop i (evs.take j)]
    rw [List.take_take, Nat.min_def, if_pos hij]
  rw [h1]
  unfold runPanel
  rw [List.foldl_append]
  exact foldl_lastMilestone_le _ _

/-- C1 counterexample: the surfaced progress-bar fraction is NOT
monotonically non-decreasing for every sequence of lines.  After the
"retrieving" milestone (0.20), the download-speed sub-path surfaces
0.20 + 0.90·0.35 = 0.515 for a "… KiB/s … 90%" line and then
0.20 + 0.10·0.35 = 0.235 for a subsequent "… KiB/s … 10%" line — a
strictly smaller fraction than the one dispatched before. -/
theorem c1_fraction_monotone_counterexample :
    (runPanel [PanelEv.progLine "retrieving foo",
        PanelEv.progLine "1 KiB/s 90%"]).fraction = mkRat 103 200
    ∧ (runPanel [PanelEv.progLine "retrieving foo",
        PanelEv.progLine "1 KiB/s 90%", PanelEv.progLine "1 KiB/s 10%"]).fraction
        = mkRat 47 200
    ∧ mkRat 47 200 < mkRat 103 200 := by
  refine ⟨by decide, by decide, by decide⟩

/-- C1 (amended): within one session, the milestone-derived fraction
(`_last_milestone`) is monotonically non-decreasing over any sequence of
events, and the surfaced progress-bar fraction never lies below the
current milestone-derived value; the download-speed sub-path, however,
may regress against its own earlier dispatches (see the counterexample). -/
theorem c1_fraction_monotone :
    (∀ (evs : List PanelEv) (i j : Nat), i ≤ j →
      (runPanel (evs.take i)).lastMilestone ≤ (runPanel (evs.take j)).lastMilestone)
    ∧ (∀ evs : List PanelEv,
        (runPanel evs).lastMilestone ≤ (runPanel evs).fraction) := by
  constructor
  · intro evs i j hij
    exact runPanel_take_lastMilestone_mono evs hij
  · intro evs
    exact (runPanel_inv evs).2.1

theorem c1_fraction_monotone_witness :
    (runPanel ([PanelEv.progLine "retrieving foo"].take 0)).lastMilestone
      ≤ (runPanel ([PanelEv.progLine "retrieving foo"].take 1)).lastMilestone
    ∧ (runPanel [PanelEv.progLine "retrieving foo"]).lastMilestone
      ≤ (runPanel [PanelEv.progLine "retrieving foo"]).fraction :=
  ⟨c1_fraction_monotone.1 [PanelEv.progLine "retrieving foo"] 0 1 (by decide),
   c1_fraction_monotone.2 [PanelEv.progLine "retrieving foo"]⟩

/-! ## Claim C3: permanence of the cancellation cutoff -/

/-- C3 counterexample: "once the session's fraction reaches or exceeds
0.80, **by whatever path it was produced**, cancellation is permanently
disallowed" is false.  The unclamped download-speed sub-path can surface
0.20 + 1.72·0.35 = 0.802 ≥ 0.80 (a "… KiB/s … 172%" line) without
disabling the Cancel button, and a subsequent cancellation request still
takes effect (it sets the cancelled flag). -/
theorem c3_cutoff_permanence_counterexample :
    CANCEL_CUTOFF
      ≤ (runPanel [PanelEv.progLine "retrieving foo",
          PanelEv.progLine "1 KiB/s 172%"]).fraction
    ∧ (runPanel [PanelEv.progLine "retrieving foo",
        PanelEv.progLine "1 KiB/s 172%"]).cancelSensitive = true
    ∧ (runPanel [PanelEv.progLine "retrieving foo",
        PanelEv.progLine "1 KiB/s 172%"]).cancelled = false
    ∧ (panelStep (runPanel [PanelEv.progLine "retrieving foo",
        PanelEv.progLine "1 KiB/s 172%"]) PanelEv.cancelClick).cancelled = true := by
  refine ⟨by decide, by decide, by decide, by decide⟩

/-- C3 (amended): once the **milestone-derived** fraction reaches or
exceeds the cutoff 0.80, the Cancel button is insensitive, it is never
re-enabled for the remainder of the session, and every cancellation
request on an insensitive button is a no-op.  (Only a milestone match can
disable cancellation; the download-speed sub-path can surface a fraction
≥ 0.80 without disabling it — see the counterexample.) -/
theorem c3_cutoff_permanence :
    (∀ evs : List PanelEv,
      CANCEL_CUTOFF ≤ (runPanel evs).lastMilestone →
        (runPanel evs).cancelSensitive = false)
    ∧ (∀ evs evs' : List PanelEv,
        (runPanel evs).cancelSensitive = false →
        (runPanel (evs ++ evs')).cancelSensitive = false)
    ∧ (∀ st : PanelState, st.cancelSensitive = false →
        panelStep st PanelEv.cancelClick = st) := by
  refine ⟨?_, ?_, ?_⟩
  · intro evs h
    exact (runPanel_inv evs).2.2 h
  · intro evs evs' h
    by_contra hne
    have htrue : (runPanel (evs ++ evs')).cancelSensitive = true :=
      Bool.not_eq_false _ |>.mp hne
    have : (runPanel evs).cancelSensitive = true := by
      unfold runPanel at htrue ⊢
      rw [List.foldl_append] at htrue
      exact foldl_sensitive_mono htrue
    rw [h] at this
    cases this
  · intro st h
    simp [panelStep, h]

theorem c3_cutoff_permanence_witness :
    (runPanel [PanelEv.progLine "processing package changes"]).cancelSensitive = false
    ∧ panelStep { initPanel with cancelSensitive := false } PanelEv.cancelClick
        = { initPanel with cancelSensitive := false } :=
  ⟨c3_cutoff_permanence.1 [PanelEv.progLine "processing package changes"] (by decide),
   c3_cutoff_permanence.2.2 _ rfl⟩

/-! ## Claim C10: frame conditions of the estimator -/

/-- C10: a line matching no qualifying milestone keyword leaves the
stored milestone fraction and the Cancel button's enabled state
unchanged; only a milestone match strictly above the current value
advances the stored fraction, and among those only one with fraction
≥ 0.80 disables cancellation — so the download-phase sub-path can neither
advance the milestone state nor disable cancel. -/
theorem c10_no_match_frame :
    (∀ (st : PanelState) (line : String),
      MILESTONES.find? (milestoneHit st (lowerStr line)) = none →
        (parseProgress st line).lastMilestone = st.lastMilestone
        ∧ (parseProgress st line).cancelSensitive = st.cancelSensitive)
    ∧ (∀ (st : PanelState) (line : String) (kf : String × ℚ),
        MILESTONES.find? (milestoneHit st (lowerStr line)) = some kf →
          (parseProgress st line).lastMilestone = kf.2
          ∧ st.lastMilestone < kf.2
          ∧ (kf.2 < CANCEL_CUTOFF →
              (parseProgress st line).cancelSensitive = st.cancelSensitive)
          ∧ (CANCEL_CUTOFF ≤ kf.2 →
              (parseProgress st line).cancelSensitive = false)) := by
  constructor
  · intro st line h
    exact ⟨(parseProgress_none_proj h).1, (parseProgress_none_proj h).2.1⟩
  · intro st line kf h
    obtain ⟨h1, _, h3, _⟩ := parseProgress_some_proj h
    refine ⟨h1, (milestoneHit_of_find?_some h).2.2, ?_, ?_⟩
    · intro hlt
      rw [h3, if_neg (not_le.mpr hlt)]
    · intro hge
      rw [h3, if_pos hge]

theorem c10_no_match_frame_witness :
    (parseProgress initPanel "1 KiB/s 50%").lastMilestone = initPanel.lastMilestone
    ∧ (parseProgress initPanel "1 KiB/s 50%").cancelSensitive
        = initPanel.cancelSensitive :=
  c10_no_match_frame.1 initPanel "1 KiB/s 50%" (by decide)

/-! ## Claim C8: the download phase -/

/-- C8: when a line matches no milestone and the last-reached milestone
fraction lies in [0.05, 0.55): a line containing "downloading" surfaces
the stripped item name in the phase label without moving the fraction or
the milestone state; otherwise a line matching the speed-and-percent
pattern surfaces the fraction 0.20 + (percent/100)·0.35 (here the exact
rational `mkRat (2000 + 35·pct) 10000`), and the fraction surfaced by
this sub-path is never below the last milestone-derived value. -/
theorem c8_download_phase :
    ∀ (st : PanelState) (line : String),
      MilestoneInv st →
      MILESTONES.find? (milestoneHit st (lowerStr line)) = none →
      mkRat 5 100 ≤ st.lastMilestone →
      st.lastMilestone < mkRat 55 100 →
      ((strContains (lowerStr line) "downloading" = true →
          (parseProgress st line).fraction = st.fraction
          ∧ (parseProgress st line).lastMilestone = st.lastMilestone
          ∧ (pyStrip (pyReplace (pyStrip line) "downloading..." "") ≠ "" →
              (parseProgress st line).subtitle
                = "Downloading "
                  ++ pyStrip (pyReplace (pyStrip line) "downloading..." "") ++ "…"))
        ∧ (∀ g : List Char × List Char,
            strContains (lowerStr line) "downloading" = false →
            reDownloadSearch line.data = some g →
            (parseProgress st line).fraction
              = mkRat (2000 + 35 * ((digitsToNat g.2 : Nat) : Int)) 10000
            ∧ st.lastMilestone ≤ (parseProgress st line).fraction)) := by
  intro st line hinv hf hr1 hr2
  constructor
  · intro hd
    obtain ⟨h1, h2, _, h4⟩ := parseProgress_downloading hf hr1 hr2 hd
    exact ⟨h1, h2, h4⟩
  · intro g hd hg
    obtain ⟨h1, _, _, _⟩ := parseProgress_speed hf hr1 hr2 hd hg
    refine ⟨h1, ?_⟩
    have h20 : st.lastMilestone ≤ mkRat 20 100 := by
      rcases hinv with h0 | hmem
      · rw [h0]; decide
      · exact milestone_snd_le_20 hmem hr2
    rw [h1]
    exact le_trans h20 (downloadFrac_ge _)

theorem c8_download_phase_witness :
    ((parseProgress { initPanel with lastMilestone := mkRat 20 100 }
        "chromium downloading...").fraction
      = ({ initPanel with lastMilestone := mkRat 20 100 } : PanelState).fraction)
    ∧ (parseProgress { initPanel with lastMilestone := mkRat 20 100 }
        "x 1 KiB/s 50%").fraction = mkRat 3750 10000 := by
  constructor
  · exact ((c8_download_phase { initPanel with lastMilestone := mkRat 20 100 }
      "chromium downloading..." (by decide) (by decide) (by decide) (by decide)).1
      (by decide)).1
  · have h := (c8_download_phase { initPanel with lastMilestone := mkRat 20 100 }
      "x 1 KiB/s 50%" (by decide) (by decide) (by decide) (by decide)).2
      (['1', ' ', 'K', 'i', 'B', '/', 's'], ['5', '0']) (by decide) (by decide)
    rw [h.1]
    decide

/-! ## Claim C9: range of surfaced fractions -/

/-- C9 counterexample: the pipeline can surface a fraction above 1.  The
`\d{1,3}` percent group accepts up to 999, and the download-speed
sub-path is not clamped: a "… KiB/s … 999%" line in the download phase
surfaces 0.20 + 9.99·0.35 = 3.6965 > 1 to the progress bar. -/
theorem c9_fraction_range_counterexample :
    (runPanel [PanelEv.progLine "retrieving foo",
        PanelEv.progLine "1 KiB/s 999%"]).fraction = mkRat 36965 10000
    ∧ 1 < (mkRat 36965 10000 : ℚ) := by
  refine ⟨by decide, by decide⟩

/-- C9 (amended): every fraction surfaced through `set_progress` is
clamped to [0,1]; every milestone-derived fraction lies in (0,1]; the
surfaced fraction is always nonnegative; and the fractions surfaced by
the unclamped download-speed sub-path equal 0.20 + (pct/100)·0.35 with
pct ≤ 999, hence lie in [0.20, 3.6965] — they may exceed 1 (see the
counterexample). -/
theorem c9_fraction_range :
    (∀ (st : PanelState) (f : ℚ) (p : String),
      0 ≤ (setProgress st f p).fraction ∧ (setProgress st f p).fraction ≤ 1)
    ∧ (∀ (st : PanelState) (line : String) (kf : String × ℚ),
        MILESTONES.find? (milestoneHit st (lowerStr line)) = some kf →
        (parseProgress st line).fraction = kf.2 ∧ 0 < kf.2 ∧ kf.2 ≤ 1)
    ∧ (∀ (st : PanelState) (line : String),
        0 ≤ st.fraction → 0 ≤ (parseProgress st line).fraction)
    ∧ (∀ (st : PanelState) (line : String) (g : List Char × List Char),
        MILESTONES.find? (milestoneHit st (lowerStr line)) = none →
        mkRat 5 100 ≤ st.lastMilestone → st.lastMilestone < mkRat 55 100 →
        strContains (lowerStr line) "downloading" = false →
        reDownloadSearch line.data = some g →
        mkRat 20 100 ≤ (parseProgress st line).fraction
        ∧ (parseProgress st line).fraction ≤ mkRat 36965 10000) := by
  refine ⟨?_, ?_, ?_, ?_⟩
  · intro st f p
    simp only [setProgress, pyMax, pyMin]
    have h01 : (0 : ℚ) ≤ 1 := by norm_num
    split <;> split_ifs <;> constructor <;> simp <;> linarith
  · intro st line kf h
    have hmem := (milestoneHit_of_find?_some h).1
    exact ⟨(parseProgress_some_proj h).2.1, milestone_snd_pos_le_one hmem⟩
  · intro st line h0
    match hf : MILESTONES.find? (milestoneHit st (lowerStr line)) with
    | some kf =>
        rw [(parseProgress_some_proj hf).2.1]
        exact le_of_lt (milestone_snd_pos_le_one (milestoneHit_of_find?_some hf).1).1
    | none =>
        rcases parseProgress_none_fraction hf with hfr | ⟨_, _, g, _, hfr⟩
        · rw [hfr]; exact h0
        · rw [hfr]
          exact le_trans (by decide : (0:ℚ) ≤ mkRat 20 100) (downloadFrac_ge _)
  · intro st line g hf hr1 hr2 hd hg
    have h1 := (parseProgress_speed hf hr1 hr2 hd hg).1
    rw [h1]
    exact ⟨downloadFrac_ge _, downloadFrac_le (reDownloadSearch_digits hg)⟩

theorem c9_fraction_range_witness :
    (0 ≤ (setProgress initPanel 2 "").fraction
      ∧ (setProgress initPanel 2 "").fraction ≤ 1)
    ∧ (0 ≤ (parseProgress initPanel "hello").fraction) :=
  ⟨c9_fraction_range.1 initPanel 2 "",
   c9_fraction_range.2.2.1 initPanel "hello" (by decide)⟩

end BigWelcome
